import Mathlib

/-!
Verification of the RapidRoute route progression and signal waypoint
tracking engine.  The Python sources (control_panel_server.py in the
Control Panel and VSC directories, simulation_server.py) are shallowly
embedded below.  Python floats are modelled as rationals.  The haversine
distance function uses transcendental floating point operations, so each
definition that consumes distances is parameterised by a function
hav : Coord -> Coord -> Rat standing for the haversine of the source;
every theorem below holds for an arbitrary such function.  External
collaborators (the OSRM route provider, the MQTT broker) are modelled as
parameters: the provider is a function returning an optional polyline,
and publishing has no effect on the simulation state.
-/

namespace RapidRoute

/-- A geographic coordinate, written (latitude, longitude). -/
abbrev Coord : Type := ℚ × ℚ

/-- The module level mutable state of control_panel_server.py:
route_points, route_signal_waypoints, current_point_index,
previous_location, current_start_name, current_destination_name and
signals_passed_on_current_route. -/
structure SimState where
  route_points : List Coord
  route_signal_waypoints : List String
  current_point_index : Nat
  previous_location : Option Coord
  current_start_name : String
  current_destination_name : String
  signals_passed_on_current_route : List String
deriving DecidableEq

/-- WAYPOINT_PROXIMITY_KM = 0.1 in the Control Panel and VSC servers. -/
def WAYPOINT_PROXIMITY_KM : ℚ := 0.1

/-- setup_signal_data of control_panel_server.py (and the identical id
assignment of load_signals_from_file in simulation_server.py): sort the
signal names, number them from 1, and build the id to name and name to
id association maps.  Python dicts with distinct keys are modelled as
association lists; sorted on strings is stable and agrees with any
stable sort by the order on strings, here insertionSort. -/
def setup_signal_data (names : List String) :
    List (Nat × String) × List (String × Nat) :=
  let sorted_signal_names := List.insertionSort (fun a b => a ≤ b) names
  let signal_id_to_name := sorted_signal_names.enum.map (fun p => (p.1 + 1, p.2))
  let signal_name_to_id := signal_id_to_name.map (fun p => (p.2, p.1))
  (signal_id_to_name, signal_name_to_id)

/-- SIGNALS.get(name, (0, 0)): coordinate lookup with default (0, 0). -/
def signalCoord (signals : List (String × Coord)) (name : String) : Coord :=
  (signals.lookup name).getD (0, 0)

/-- list(dict.fromkeys(l)): deduplicate keeping the first occurrence.
The second argument accumulates the names already seen. -/
def dedup_first : List String → List String → List String
  | [], _ => []
  | a :: l, seen =>
      if a ∈ seen then dedup_first l seen else a :: dedup_first l (a :: seen)

/-- find_signals_on_path of the Control Panel server (lines 96 to 108):
collect every registered signal within WAYPOINT_PROXIMITY_KM of some
path point, sort by distance from the start signal, remove start and
end, reattach them at the two ends and deduplicate keeping first
occurrences.  The lookup of the start coordinate raises KeyError in
Python when the start name is unregistered; that is modelled by the
none result. -/
def find_signals_on_path (hav : Coord → Coord → ℚ) (signals : List (String × Coord))
    (route_points : List Coord) (start_name end_name : String) :
    Option (List String) :=
  let waypoints := (signals.filter (fun nc =>
      route_points.any (fun p => decide (hav p nc.2 < WAYPOINT_PROXIMITY_KM)))).map Prod.fst
  match signals.lookup start_name with
  | none => none
  | some sc =>
      let sorted := List.insertionSort
        (fun a b => hav sc (signalCoord signals a) ≤ hav sc (signalCoord signals b)) waypoints
      let trimmed := (sorted.erase start_name).erase end_name
      let final_waypoints := start_name :: (trimmed ++ [end_name])
      some (dedup_first final_waypoints [])

/-- find_signals_on_path of the VSC variant (lines 93 to 104): identical
except that the result is not deduplicated. -/
def find_signals_on_path_vsc (hav : Coord → Coord → ℚ) (signals : List (String × Coord))
    (route_points : List Coord) (start_name end_name : String) :
    Option (List String) :=
  let waypoints := (signals.filter (fun nc =>
      route_points.any (fun p => decide (hav p nc.2 < WAYPOINT_PROXIMITY_KM)))).map Prod.fst
  match signals.lookup start_name with
  | none => none
  | some sc =>
      let sorted := List.insertionSort
        (fun a b => hav sc (signalCoord signals a) ≤ hav sc (signalCoord signals b)) waypoints
      let trimmed := (sorted.erase start_name).erase end_name
      some (start_name :: (trimmed ++ [end_name]))

/-- get_next_simulated_location of the Control Panel server (lines 110
to 123).  Returns the (current, previous) pair and the updated state.
With an empty route it returns (none, none); once the cursor reaches
the end it holds the final point; otherwise it serves the point at the
cursor, advances the cursor by one and records the previous location.
All list indices are in range in the branches where they are used. -/
def get_next_simulated_location (s : SimState) :
    (Option Coord × Option Coord) × SimState :=
  if h1 : s.route_points = [] then ((none, none), s)
  else if h2 : s.route_points.length ≤ s.current_point_index then
    let lastPt := s.route_points.getLast h1
    let prevPt := if _h3 : 1 < s.route_points.length then
        s.route_points.get ⟨s.route_points.length - 2, by omega⟩
      else lastPt
    ((some lastPt, some prevPt), s)
  else
    have hlen : s.current_point_index < s.route_points.length := by omega
    let prevPt := if _h4 : 0 < s.current_point_index then
        s.route_points.get ⟨s.current_point_index - 1, by omega⟩
      else s.route_points.get ⟨0, by omega⟩
    let curPt := s.route_points.get ⟨s.current_point_index, hlen⟩
    ((some curPt, some prevPt),
      { s with current_point_index := s.current_point_index + 1,
               previous_location := some prevPt })

/-- get_next_simulated_location of the VSC variant (lines 106 to 115):
identical active behaviour, but both the empty route and the exhausted
route return (none, none) instead of holding the final point. -/
def get_next_simulated_location_vsc (s : SimState) :
    (Option Coord × Option Coord) × SimState :=
  if _h1 : s.route_points = [] then ((none, none), s)
  else if h2 : s.route_points.length ≤ s.current_point_index then ((none, none), s)
  else
    have hlen : s.current_point_index < s.route_points.length := by omega
    let prevPt := if _h4 : 0 < s.current_point_index then
        s.route_points.get ⟨s.current_point_index - 1, by omega⟩
      else s.route_points.get ⟨0, by omega⟩
    let curPt := s.route_points.get ⟨s.current_point_index, hlen⟩
    ((some curPt, some prevPt),
      { s with current_point_index := s.current_point_index + 1,
               previous_location := some prevPt })

/-- One pass formulation: the state transformer part of the tick. -/
def tickState (s : SimState) : SimState := (get_next_simulated_location s).2

/-- The observable output part of the tick. -/
def tickOut (s : SimState) : Option Coord × Option Coord :=
  (get_next_simulated_location s).1

/-- next((s for s in route_signal_waypoints if s not in
signals_passed_on_current_route), None): the first waypoint not yet
marked as passed. -/
def firstUnpassed (route_signal_waypoints signals_passed : List String) : Option String :=
  route_signal_waypoints.find? (fun s => decide (s ∉ signals_passed))

/-- One iteration of the while loop of find_next_signal_on_route
(Control Panel lines 125 to 138, identical in simulation_server.py
lines 151 to 164).  A (some r, p) result means the loop returns r with
passed list p; a (none, p) result means the loop marked a waypoint as
passed and continues with passed list p. -/
def loopStep (hav : Coord → Coord → ℚ) (signals : List (String × Coord))
    (current_destination_name : String) (cur : Coord)
    (route_signal_waypoints signals_passed : List String) :
    Option String × List String :=
  match firstUnpassed route_signal_waypoints signals_passed with
  | none => (some current_destination_name, signals_passed)
  | some w =>
      let c := signalCoord signals w
      if hav cur c < 0.05 then
        (none, if w ∈ signals_passed then signals_passed else signals_passed ++ [w])
      else
        (some w, signals_passed)

/-- The while True loop of find_next_signal_on_route, run with explicit
fuel; none models running out of fuel (the Python loop has no bound, so
the termination claim is that enough fuel always exists). -/
def find_next_loop (hav : Coord → Coord → ℚ) (signals : List (String × Coord))
    (current_destination_name : String) (cur : Coord)
    (route_signal_waypoints : List String) :
    Nat → List String → Option (String × List String)
  | 0, _ => none
  | fuel + 1, passed =>
      match loopStep hav signals current_destination_name cur
          route_signal_waypoints passed with
      | (some r, p) => some (r, p)
      | (none, p) =>
          find_next_loop hav signals current_destination_name cur
            route_signal_waypoints fuel p

/-- find_next_signal_on_route: the loop with fuel one more than the
number of route waypoints, which the termination theorem shows is
always sufficient.  Returns the reported next signal together with the
updated signals_passed_on_current_route list. -/
def find_next_signal_on_route (hav : Coord → Coord → ℚ) (signals : List (String × Coord))
    (current_destination_name : String) (cur : Coord)
    (route_signal_waypoints signals_passed : List String) :
    Option (String × List String) :=
  find_next_loop hav signals current_destination_name cur route_signal_waypoints
    (route_signal_waypoints.length + 1) signals_passed

/-- Outcome of a route activation request: success, a failed or non OK
provider call (the 500 response branch), or a KeyError escaping the
handler (unknown id or name). -/
inductive ActivationOutcome where
  | success
  | providerFailure
  | lookupError
deriving DecidableEq

/-- start_manual_route of the Control Panel server (lines 156 to 192).
The provider argument models get_osrm_route and receives the start and
end coordinates in (longitude, latitude) order; its some result is the
polyline as (longitude, latitude) pairs.  Note that the two name
globals are assigned before the provider is consulted, and that on a
successful call the whole route state is replaced and the cursor,
previous location and passed list are reset. -/
def start_manual_route (hav : Coord → Coord → ℚ)
    (signal_id_to_name : List (Nat × String)) (signals : List (String × Coord))
    (provider : Coord → Coord → Option (List Coord))
    (start_id end_id : Nat) (s : SimState) : ActivationOutcome × SimState :=
  match signal_id_to_name.lookup start_id with
  | none => (.lookupError, s)
  | some start_nm =>
      let s1 := { s with current_start_name := start_nm }
      match signal_id_to_name.lookup end_id with
      | none => (.lookupError, s1)
      | some end_nm =>
          let s2 := { s1 with current_destination_name := end_nm }
          match signals.lookup start_nm, signals.lookup end_nm with
          | some start_coord, some end_coord =>
              match provider (start_coord.2, start_coord.1) (end_coord.2, end_coord.1) with
              | none => (.providerFailure, s2)
              | some [] => (.providerFailure, s2)
              | some (c0 :: crest) =>
                  let pts := (c0 :: crest).map (fun p => (p.2, p.1))
                  match find_signals_on_path hav signals pts start_nm end_nm with
                  | none => (.lookupError, { s2 with route_points := pts })
                  | some wps =>
                      (.success,
                        { s2 with route_points := pts,
                                  route_signal_waypoints := wps,
                                  current_point_index := 0,
                                  previous_location := none,
                                  signals_passed_on_current_route := [] })
          | _, _ => (.lookupError, s2)

/-- start_route of the VSC variant (lines 144 to 166): same flow, but
on success previous_location is left untouched and the sequencer is the
variant without deduplication. -/
def start_route_vsc (hav : Coord → Coord → ℚ)
    (signal_id_to_name : List (Nat × String)) (signals : List (String × Coord))
    (provider : Coord → Coord → Option (List Coord))
    (start_id end_id : Nat) (s : SimState) : ActivationOutcome × SimState :=
  match signal_id_to_name.lookup start_id with
  | none => (.lookupError, s)
  | some start_nm =>
      let s1 := { s with current_start_name := start_nm }
      match signal_id_to_name.lookup end_id with
      | none => (.lookupError, s1)
      | some end_nm =>
          let s2 := { s1 with current_destination_name := end_nm }
          match signals.lookup start_nm, signals.lookup end_nm with
          | some start_coord, some end_coord =>
              match provider (start_coord.2, start_coord.1) (end_coord.2, end_coord.1) with
              | none => (.providerFailure, s2)
              | some [] => (.providerFailure, s2)
              | some (c0 :: crest) =>
                  let pts := (c0 :: crest).map (fun p => (p.2, p.1))
                  match find_signals_on_path_vsc hav signals pts start_nm end_nm with
                  | none => (.lookupError, { s2 with route_points := pts })
                  | some wps =>
                      (.success,
                        { s2 with route_points := pts,
                                  route_signal_waypoints := wps,
                                  current_point_index := 0,
                                  signals_passed_on_current_route := [] })
          | _, _ => (.lookupError, s2)

/-- One precalculated route of simulation_server.py. -/
structure PreRoute where
  startName : String
  destName : String
  points : List Coord
  waypoints : List String
deriving DecidableEq

/-- select_new_route of simulation_server.py (lines 119 to 139).  The
random draw of random.choice is modelled by the pick argument reduced
modulo the pool size.  On success the route state is replaced and the
cursor, previous location and passed list are reset. -/
def select_new_route (pool : List PreRoute) (pick : Nat) (s : SimState) :
    Bool × SimState :=
  match pool with
  | [] => (false, s)
  | r0 :: rest =>
      let selected := (r0 :: rest).getD (pick % (r0 :: rest).length) r0
      (true,
        { s with route_points := selected.points,
                 route_signal_waypoints := selected.waypoints,
                 current_start_name := selected.startName,
                 current_destination_name := selected.destName,
                 current_point_index := 0,
                 previous_location := none,
                 signals_passed_on_current_route := [] })

/-- Left pad a digit string with zeros to width six, as the fractional
part of a .6f format always carries six digits. -/
def padZeros6 (s : String) : String :=
  String.mk (List.replicate (6 - s.length) '0') ++ s

/-- The .6f float format of the payload f string: the value rounded to
six decimal places, with exactly six digits after the point. -/
def formatFixed6 (q : ℚ) : String :=
  let n : Int := round (q * 1000000)
  let sign := if n < 0 then "-" else ""
  let m := n.natAbs
  sign ++ toString (m / 1000000) ++ "." ++ padZeros6 (toString (m % 1000000))

/-- The payload f string of get_location (Control Panel lines 194 to
208, simulation_server lines 166 to 180): four .6f coordinates and
three integer ids joined by commas. -/
def get_location_payload (current_loc prev_loc : Coord)
    (start_id dest_id next_signal_id : Nat) : String :=
  formatFixed6 current_loc.1 ++ "," ++ formatFixed6 current_loc.2 ++ "," ++
    formatFixed6 prev_loc.1 ++ "," ++ formatFixed6 prev_loc.2 ++ "," ++
    toString start_id ++ "," ++ toString dest_id ++ "," ++ toString next_signal_id

/-!
Helper lemmas about the waypoint scanning loop.
-/

/-- The number of waypoints not yet passed strictly drops when a fresh
waypoint is appended to the passed list. -/
theorem filter_unpassed_decrease (wps passed : List String) (w : String)
    (hw : w ∈ wps) (hnp : w ∉ passed) :
    (wps.filter (fun s => decide (s ∉ passed ++ [w]))).length
      < (wps.filter (fun s => decide (s ∉ passed))).length := by
  have himp : ∀ a : String, (decide (a ∉ passed ++ [w])) = true →
      (decide (a ∉ passed)) = true := by
    intro a ha
    have := of_decide_eq_true ha
    refine decide_eq_true ?_
    intro hmem
    exact this (List.mem_append_left _ hmem)
  have hsub : List.Sublist (wps.filter (fun s => decide (s ∉ passed ++ [w])))
      (wps.filter (fun s => decide (s ∉ passed))) :=
    List.monotone_filter_right wps himp
  have hwin : w ∈ wps.filter (fun s => decide (s ∉ passed)) := by
    rw [List.mem_filter]
    exact ⟨hw, decide_eq_true hnp⟩
  have hwout : w ∉ wps.filter (fun s => decide (s ∉ passed ++ [w])) := by
    rw [List.mem_filter]
    rintro ⟨-, hdec⟩
    exact (of_decide_eq_true hdec) (List.mem_append_right _ (List.mem_singleton_self w))
  refine Nat.lt_of_le_of_ne hsub.length_le ?_
  intro hlen
  exact hwout (hsub.eq_of_length hlen ▸ hwin)

/-- One unfolding of the loop at positive fuel. -/
theorem find_next_loop_succ (hav : Coord → Coord → ℚ) (signals : List (String × Coord))
    (dest : String) (cur : Coord) (wps : List String) (fuel : Nat) (passed : List String) :
    find_next_loop hav signals dest cur wps (fuel + 1) passed =
      match loopStep hav signals dest cur wps passed with
      | (some r, p) => some (r, p)
      | (none, p) => find_next_loop hav signals dest cur wps fuel p := rfl

/-- Full specification of the waypoint scanning loop, by induction on
the fuel: with enough fuel the loop returns, the passed list is only
extended, every appended name is a fresh waypoint inside the arrival
radius, and the returned signal is either the destination (when no
unpassed waypoint remains) or the first unpassed waypoint, which lies
outside the arrival radius. -/
theorem find_next_loop_spec (hav : Coord → Coord → ℚ) (signals : List (String × Coord))
    (dest : String) (cur : Coord) (wps : List String) :
    ∀ (fuel : Nat) (passed : List String),
      (wps.filter (fun s => decide (s ∉ passed))).length < fuel →
      ∃ r ext,
        find_next_loop hav signals dest cur wps fuel passed = some (r, passed ++ ext)
        ∧ (∀ x ∈ ext, x ∈ wps ∧ x ∉ passed ∧ hav cur (signalCoord signals x) < 0.05)
        ∧ ext.Nodup
        ∧ (∀ x ∈ passed, x ∉ ext)
        ∧ ((firstUnpassed wps (passed ++ ext) = none ∧ r = dest)
            ∨ (firstUnpassed wps (passed ++ ext) = some r
                ∧ ¬ hav cur (signalCoord signals r) < 0.05)) := by
  intro fuel
  induction fuel with
  | zero =>
      intro passed hm
      exact absurd hm (Nat.not_lt_zero _)
  | succ n ih =>
      intro passed hm
      cases hfu : firstUnpassed wps passed with
      | none =>
          have hls : loopStep hav signals dest cur wps passed = (some dest, passed) := by
            unfold loopStep
            rw [hfu]
          refine ⟨dest, [], ?_, by simp, List.nodup_nil, by simp, ?_⟩
          · rw [find_next_loop_succ, hls, List.append_nil]
          · left
            rw [List.append_nil]
            exact ⟨hfu, rfl⟩
      | some w =>
          have hfu2 : wps.find? (fun s => decide (s ∉ passed)) = some w := hfu
          have hw_mem : w ∈ wps := List.mem_of_find?_eq_some hfu2
          have hw_not : w ∉ passed := by
            have h := List.find?_some hfu2
            simpa using h
          by_cases hd : hav cur (signalCoord signals w) < 0.05
          · have hls : loopStep hav signals dest cur wps passed
                = (none, passed ++ [w]) := by
              unfold loopStep
              rw [hfu]
              simp [hd, hw_not]
            have hstep : find_next_loop hav signals dest cur wps (n + 1) passed
                = find_next_loop hav signals dest cur wps n (passed ++ [w]) := by
              rw [find_next_loop_succ, hls]
            have hmeas : (wps.filter (fun s => decide (s ∉ passed ++ [w]))).length < n := by
              have := filter_unpassed_decrease wps passed w hw_mem hw_not
              omega
            obtain ⟨r, ext, heq, hprops, hnodup, hdisj, hlast⟩ := ih (passed ++ [w]) hmeas
            refine ⟨r, w :: ext, ?_, ?_, ?_, ?_, ?_⟩
            · rw [hstep, heq]
              simp
            · intro x hx
              rw [List.mem_cons] at hx
              rcases hx with rfl | hx
              · exact ⟨hw_mem, hw_not, hd⟩
              · obtain ⟨h1, h2, h3⟩ := hprops x hx
                exact ⟨h1, fun hc => h2 (List.mem_append_left _ hc), h3⟩
            · refine List.nodup_cons.mpr ⟨?_, hnodup⟩
              exact hdisj w (List.mem_append_right _ (List.mem_singleton_self w))
            · intro x hx
              rw [List.mem_cons]
              rintro (rfl | hc)
              · exact hw_not hx
              · exact hdisj x (List.mem_append_left _ hx) hc
            · have hre : passed ++ w :: ext = (passed ++ [w]) ++ ext := by
                simp
              rw [hre]
              exact hlast
          · have hls : loopStep hav signals dest cur wps passed = (some w, passed) := by
              unfold loopStep
              rw [hfu]
              simp [hd]
            refine ⟨w, [], ?_, by simp, List.nodup_nil, by simp, ?_⟩
            · rw [find_next_loop_succ, hls, List.append_nil]
            · right
              rw [List.append_nil]
              exact ⟨hfu, hd⟩

/-!
Helper lemmas about the route simulator tick.
-/

/-- In the active branch the tick serves the point at the cursor, with
the point before it as previous, advancing the cursor. -/
theorem tick_active (s : SimState)
    (h : s.current_point_index < s.route_points.length) :
    get_next_simulated_location s
      = ((s.route_points.get? s.current_point_index,
          s.route_points.get? (s.current_point_index - 1)),
         { s with current_point_index := s.current_point_index + 1,
                  previous_location :=
                    s.route_points.get? (s.current_point_index - 1) }) := by
  have hne : s.route_points ≠ [] := by
    intro he
    rw [he] at h
    simp at h
  have hnle : ¬ s.route_points.length ≤ s.current_point_index := by omega
  by_cases h0 : 0 < s.current_point_index
  · simp only [get_next_simulated_location, dif_neg hne, dif_neg hnle, dif_pos h0]
    rw [List.get?_eq_get h, List.get?_eq_get (show s.current_point_index - 1
      < s.route_points.length by omega)]
  · simp only [get_next_simulated_location, dif_neg hne, dif_neg hnle, dif_neg h0]
    rw [List.get?_eq_get h, List.get?_eq_get (show s.current_point_index - 1
      < s.route_points.length by omega)]
    have h0e : s.current_point_index = 0 := by omega
    simp [h0e]

/-- In the exhausted branch the tick holds the final point. -/
theorem tick_held (s : SimState) (h1 : s.route_points ≠ [])
    (h2 : s.route_points.length ≤ s.current_point_index) :
    get_next_simulated_location s
      = ((s.route_points.get? (s.route_points.length - 1),
          s.route_points.get? (if 1 < s.route_points.length
            then s.route_points.length - 2 else s.route_points.length - 1)), s) := by
  have hpos : 0 < s.route_points.length := List.length_pos.mpr h1
  by_cases h3 : 1 < s.route_points.length
  · simp only [get_next_simulated_location, dif_neg h1, dif_pos h2, dif_pos h3, if_pos h3]
    rw [List.getLast_eq_get,
      List.get?_eq_get (show s.route_points.length - 1 < s.route_points.length by omega),
      List.get?_eq_get (show s.route_points.length - 2 < s.route_points.length by omega)]
  · simp only [get_next_simulated_location, dif_neg h1, dif_pos h2, dif_neg h3, if_neg h3]
    rw [List.getLast_eq_get,
      List.get?_eq_get (show s.route_points.length - 1 < s.route_points.length by omega)]

/-- Once the cursor is at or past the end, the tick leaves the state
unchanged. -/
theorem tickState_fix (s : SimState)
    (h : s.route_points.length ≤ s.current_point_index) : tickState s = s := by
  by_cases h1 : s.route_points = []
  · simp only [tickState, get_next_simulated_location, dif_pos h1]
  · simp only [tickState, get_next_simulated_location, dif_neg h1, dif_pos h]

/-- Iterating the tick i times from a fresh cursor keeps the route and
moves the cursor to i, while i stays within the route length. -/
theorem tickState_iterate (s0 : SimState) (h0 : s0.current_point_index = 0) :
    ∀ i, i ≤ s0.route_points.length →
      (tickState^[i] s0).route_points = s0.route_points
      ∧ (tickState^[i] s0).current_point_index = i := by
  intro i
  induction i with
  | zero =>
      intro _
      simp [h0]
  | succ n ih =>
      intro hle
      obtain ⟨hr, hc⟩ := ih (by omega)
      rw [Function.iterate_succ_apply']
      have hlt : (tickState^[n] s0).current_point_index
          < (tickState^[n] s0).route_points.length := by
        rw [hr, hc]
        omega
      have hts : tickState (tickState^[n] s0)
          = { tickState^[n] s0 with
              current_point_index := (tickState^[n] s0).current_point_index + 1,
              previous_location := (tickState^[n] s0).route_points.get?
                ((tickState^[n] s0).current_point_index - 1) } := by
        show (get_next_simulated_location (tickState^[n] s0)).2 = _
        rw [tick_active _ hlt]
      rw [hts]
      constructor
      · simpa using hr
      · simp [hc]

/-- Past the end of the route, further ticks no longer change the
state. -/
theorem tickState_iterate_ge (s0 : SimState) (h0 : s0.current_point_index = 0) :
    ∀ k, s0.route_points.length ≤ k →
      tickState^[k] s0 = tickState^[s0.route_points.length] s0 := by
  intro k
  induction k with
  | zero =>
      intro hk
      have : s0.route_points.length = 0 := by omega
      rw [this]
  | succ n ih =>
      intro hk
      by_cases he : s0.route_points.length = n + 1
      · rw [he]
      · have hlen : s0.route_points.length ≤ n := by omega
        rw [Function.iterate_succ_apply', ih hlen]
        obtain ⟨hr, hc⟩ := tickState_iterate s0 h0 s0.route_points.length (le_refl _)
        refine tickState_fix _ ?_
        rw [hr, hc]
/-!
Claim theorems.
-/

/-- Claim C5: signal identifier assignment is a pure, deterministic
function of the set of signal names.  Initialising from any two
permutations of the same name list yields the same maps; ids 1..N are
assigned in ascending lexicographic order of the names (the id column
is exactly the range 1..N and the name column is sorted ascending);
and for the set consisting of B and A, the id of A is 1 and the id of
B is 2. -/
theorem C5_id_assignment :
    (∀ l1 l2 : List String, l1.Perm l2 → setup_signal_data l1 = setup_signal_data l2)
    ∧ (∀ l : List String,
        (setup_signal_data l).1.map Prod.fst = List.range' 1 l.length)
    ∧ (∀ l : List String,
        List.Sorted (· ≤ ·) ((setup_signal_data l).1.map Prod.snd))
    ∧ (setup_signal_data ["B", "A"]).2.lookup "A" = some 1
    ∧ (setup_signal_data ["B", "A"]).2.lookup "B" = some 2 := by
  have hsort : ∀ l1 l2 : List String, l1.Perm l2 →
      List.insertionSort (fun a b => a ≤ b) l1 = List.insertionSort (fun a b => a ≤ b) l2 := by
    intro l1 l2 hp
    exact List.eq_of_perm_of_sorted
      ((List.perm_insertionSort _ l1).trans (hp.trans (List.perm_insertionSort _ l2).symm))
      (List.sorted_insertionSort _ l1) (List.sorted_insertionSort _ l2)
  have hBA : List.insertionSort (fun a b => (a : String) ≤ b) ["B", "A"] = ["A", "B"] := by
    simp [List.insertionSort, List.orderedInsert]
    decide
  refine ⟨?_, ?_, ?_, ?_, ?_⟩
  · intro l1 l2 hp
    unfold setup_signal_data
    rw [hsort l1 l2 hp]
  · intro l
    unfold setup_signal_data
    have h1 : ((List.insertionSort (fun a b => (a : String) ≤ b) l).enum.map
        (fun p => (p.1 + 1, p.2))).map Prod.fst
        = (List.insertionSort (fun a b => (a : String) ≤ b) l).enum.map (fun p => p.1 + 1) := by
      rw [List.map_map]
      rfl
    have h2 : (fun p : Nat × String => p.1 + 1) = (fun i => 1 + i) ∘ Prod.fst := by
      funext p
      simp [Nat.add_comm]
    have h3 : (List.insertionSort (fun a b => (a : String) ≤ b) l).length = l.length :=
      (List.perm_insertionSort _ l).length_eq
    simp only [h1, h2, ← List.map_map, List.enum_map_fst, h3]
    rw [← List.range'_eq_map_range]
  · intro l
    unfold setup_signal_data
    have h1 : ((List.insertionSort (fun a b => (a : String) ≤ b) l).enum.map
        (fun p => (p.1 + 1, p.2))).map Prod.snd
        = List.insertionSort (fun a b => (a : String) ≤ b) l := by
      rw [List.map_map]
      simp [Function.comp_def, List.enum_map_snd]
    simp only [h1]
    exact List.sorted_insertionSort _ l
  · simp only [setup_signal_data, hBA]
    decide
  · simp only [setup_signal_data, hBA]
    decide

/-- Witness for claim C5 at a concrete input: the two orderings of the
name set produce identical id maps. -/
theorem C5_witness :
    (["B", "A"] : List String).Perm ["A", "B"]
    ∧ setup_signal_data ["B", "A"] = setup_signal_data ["A", "B"] :=
  ⟨.swap "A" "B" [], C5_id_assignment.1 _ _ (.swap "A" "B" [])⟩

/-- Claim C8: the telemetry payload is the exact comma separated string
with latitudes and longitudes formatted to six decimal places and ids
as plain integers; encoding the example of the specification yields
exactly the expected string. -/
theorem C8_telemetry_payload :
    get_location_payload (22.308300, 73.165200) (22.308200, 73.165100) 3 7 5
      = "22.308300,73.165200,22.308200,73.165100,3,7,5" := by
  have e1 : formatFixed6 (22.308300 : ℚ) = "22.308300" := by
    have h : round ((22.308300 : ℚ) * 1000000) = 22308300 := by
      rw [round_eq]
      norm_num
    simp only [formatFixed6, h]
    decide
  have e2 : formatFixed6 (73.165200 : ℚ) = "73.165200" := by
    have h : round ((73.165200 : ℚ) * 1000000) = 73165200 := by
      rw [round_eq]
      norm_num
    simp only [formatFixed6, h]
    decide
  have e3 : formatFixed6 (22.308200 : ℚ) = "22.308200" := by
    have h : round ((22.308200 : ℚ) * 1000000) = 22308200 := by
      rw [round_eq]
      norm_num
    simp only [formatFixed6, h]
    decide
  have e4 : formatFixed6 (73.165100 : ℚ) = "73.165100" := by
    have h : round ((73.165100 : ℚ) * 1000000) = 73165100 := by
      rw [round_eq]
      norm_num
    simp only [formatFixed6, h]
    decide
  simp only [get_location_payload, e1, e2, e3, e4]
  decide

/-- Claim C9: the scanning loop of find_next_signal_on_route always
terminates: with fuel one more than the number of route waypoints the
loop returns a result for every input, because every iteration that
does not return strictly grows the passed list with a waypoint not
previously in it. -/
theorem C9_loop_terminates :
    (∀ (hav : Coord → Coord → ℚ) (signals : List (String × Coord)) (dest : String)
        (cur : Coord) (wps passed : List String),
        (find_next_signal_on_route hav signals dest cur wps passed).isSome = true)
    ∧ (∀ (hav : Coord → Coord → ℚ) (signals : List (String × Coord)) (dest : String)
        (cur : Coord) (wps passed p2 : List String),
        loopStep hav signals dest cur wps passed = (none, p2) →
        ∃ w, w ∈ wps ∧ w ∉ passed ∧ p2 = passed ++ [w]) := by
  constructor
  · intro hav signals dest cur wps passed
    have hm : (wps.filter (fun s => decide (s ∉ passed))).length < wps.length + 1 :=
      Nat.lt_succ_of_le (List.length_filter_le _ _)
    obtain ⟨r, ext, heq, -⟩ :=
      find_next_loop_spec hav signals dest cur wps (wps.length + 1) passed hm
    unfold find_next_signal_on_route
    rw [heq]
    rfl
  · intro hav signals dest cur wps passed p2 hstep
    cases hfu : firstUnpassed wps passed with
    | none =>
        simp only [loopStep, hfu] at hstep
        exact absurd hstep (by simp)
    | some w =>
        have hfu2 : wps.find? (fun s => decide (s ∉ passed)) = some w := hfu
        have hw_mem : w ∈ wps := List.mem_of_find?_eq_some hfu2
        have hw_not : w ∉ passed := by simpa using List.find?_some hfu2
        simp only [loopStep, hfu] at hstep
        by_cases hd : hav cur (signalCoord signals w) < 0.05
        · rw [if_pos hd, if_neg hw_not] at hstep
          refine ⟨w, hw_mem, hw_not, ?_⟩
          simp only [Prod.mk.injEq] at hstep
          exact hstep.2.symm
        · rw [if_neg hd] at hstep
          simp at hstep

/-- Witness for claim C9 at a concrete input: one loop iteration marks
the single waypoint as passed, growing the passed list by it. -/
theorem C9_witness :
    loopStep (fun _ _ => (0 : ℚ)) [("A", ((0 : ℚ), (0 : ℚ)))] "D" ((0 : ℚ), (0 : ℚ))
        ["A"] [] = (none, ["A"])
    ∧ ∃ w, w ∈ (["A"] : List String) ∧ w ∉ ([] : List String) ∧ ["A"] = [] ++ [w] := by
  have hlt : (0 : ℚ) < 0.05 := by norm_num
  have hstep : loopStep (fun _ _ => (0 : ℚ)) [("A", ((0 : ℚ), (0 : ℚ)))] "D"
      ((0 : ℚ), (0 : ℚ)) ["A"] [] = (none, ["A"]) := by
    simp [loopStep, firstUnpassed, signalCoord, hlt]
  exact ⟨hstep, C9_loop_terminates.2 _ _ _ _ _ _ _ hstep⟩

/-- Claim C6: the passed waypoint set is monotone across calls of the
next waypoint operation: every name in the passed list before a call is
still in the passed list it returns; and once every waypoint of the
route is passed, every call returns the destination and leaves the
passed list unchanged. -/
theorem C6_passed_monotone :
    (∀ (hav : Coord → Coord → ℚ) (signals : List (String × Coord)) (dest : String)
        (cur : Coord) (wps passed : List String) (r : String) (p2 : List String),
        find_next_signal_on_route hav signals dest cur wps passed = some (r, p2) →
        ∀ x ∈ passed, x ∈ p2)
    ∧ (∀ (hav : Coord → Coord → ℚ) (signals : List (String × Coord)) (dest : String)
        (cur : Coord) (wps passed : List String),
        (∀ w ∈ wps, w ∈ passed) →
        find_next_signal_on_route hav signals dest cur wps passed = some (dest, passed)) := by
  constructor
  · intro hav signals dest cur wps passed r p2 hres x hx
    have hm : (wps.filter (fun s => decide (s ∉ passed))).length < wps.length + 1 :=
      Nat.lt_succ_of_le (List.length_filter_le _ _)
    obtain ⟨r2, ext, heq, -⟩ :=
      find_next_loop_spec hav signals dest cur wps (wps.length + 1) passed hm
    unfold find_next_signal_on_route at hres
    rw [heq] at hres
    simp only [Option.some.injEq, Prod.mk.injEq] at hres
    rw [← hres.2]
    exact List.mem_append_left _ hx
  · intro hav signals dest cur wps passed hall
    have hfu : firstUnpassed wps passed = none := by
      unfold firstUnpassed
      rw [List.find?_eq_none]
      intro x hx
      simp only [decide_eq_true_eq]
      exact fun hc => hc (hall x hx)
    have hls : loopStep hav signals dest cur wps passed = (some dest, passed) := by
      unfold loopStep
      rw [hfu]
    unfold find_next_signal_on_route
    rw [find_next_loop_succ, hls]

/-- Witness for claim C6 at a concrete input: with the single waypoint
already passed, the call returns the destination, the passed list is
unchanged and its members persist. -/
theorem C6_witness :
    (∀ w ∈ (["A"] : List String), w ∈ (["A"] : List String))
    ∧ find_next_signal_on_route (fun _ _ => (0 : ℚ)) [("A", ((0 : ℚ), (0 : ℚ)))] "D"
        ((0 : ℚ), (0 : ℚ)) ["A"] ["A"] = some ("D", ["A"])
    ∧ (∀ x ∈ (["A"] : List String), x ∈ (["A"] : List String)) := by
  have hall : ∀ w ∈ (["A"] : List String), w ∈ (["A"] : List String) := by decide
  have hres := C6_passed_monotone.2 (fun _ _ => (0 : ℚ)) [("A", ((0 : ℚ), (0 : ℚ)))] "D"
    ((0 : ℚ), (0 : ℚ)) ["A"] ["A"] hall
  exact ⟨hall, hres, C6_passed_monotone.1 _ _ _ _ _ _ _ _ hres⟩

/-- Claim C7: within a single call of the next waypoint operation, the
waypoints marked passed are exactly fresh waypoints strictly inside the
0.05 km arrival radius, each appended exactly once (the passed list
stays duplicate free), and the returned signal is either the first
waypoint still unpassed afterwards, necessarily at distance at least
0.05 km, or the destination when none remains. -/
theorem C7_arrival_scan (hav : Coord → Coord → ℚ) (signals : List (String × Coord))
    (dest : String) (cur : Coord) (wps passed : List String) (hnd : passed.Nodup) :
    ∃ r ext,
      find_next_signal_on_route hav signals dest cur wps passed = some (r, passed ++ ext)
      ∧ (passed ++ ext).Nodup
      ∧ (∀ x ∈ ext, x ∈ wps ∧ x ∉ passed ∧ hav cur (signalCoord signals x) < 0.05)
      ∧ ((firstUnpassed wps (passed ++ ext) = none ∧ r = dest)
          ∨ (firstUnpassed wps (passed ++ ext) = some r
              ∧ ¬ hav cur (signalCoord signals r) < 0.05)) := by
  have hm : (wps.filter (fun s => decide (s ∉ passed))).length < wps.length + 1 :=
    Nat.lt_succ_of_le (List.length_filter_le _ _)
  obtain ⟨r, ext, heq, hprops, hnodup, hdisj, hlast⟩ :=
    find_next_loop_spec hav signals dest cur wps (wps.length + 1) passed hm
  refine ⟨r, ext, heq, ?_, hprops, hlast⟩
  exact List.Nodup.append hnd hnodup (fun a ha hb => hdisj a ha hb)

/-- Witness for claim C7 at a concrete input: with one distant waypoint
nothing is appended and the waypoint itself is returned. -/
theorem C7_witness :
    (([] : List String).Nodup)
    ∧ ∃ r ext,
        find_next_signal_on_route (fun _ _ => (1 : ℚ)) [("A", ((0 : ℚ), (0 : ℚ)))] "D"
          ((0 : ℚ), (0 : ℚ)) ["A"] [] = some (r, [] ++ ext)
        ∧ (([] ++ ext : List String)).Nodup
        ∧ (∀ x ∈ ext, x ∈ (["A"] : List String) ∧ x ∉ ([] : List String)
            ∧ (1 : ℚ) < 0.05)
        ∧ ((firstUnpassed ["A"] ([] ++ ext) = none ∧ r = "D")
            ∨ (firstUnpassed ["A"] ([] ++ ext) = some r ∧ ¬ (1 : ℚ) < 0.05)) :=
  ⟨List.nodup_nil,
    C7_arrival_scan (fun _ _ => (1 : ℚ)) [("A", ((0 : ℚ), (0 : ℚ)))] "D"
      ((0 : ℚ), (0 : ℚ)) ["A"] [] List.nodup_nil⟩

/-- Claim C10: a waypoint whose name is absent from the signal registry
does not raise an error in the next waypoint operation: it is treated
as located at coordinate (0, 0), the call is total, and the waypoint is
marked passed exactly when the current point is strictly within the
arrival radius of (0, 0). -/
theorem C10_unknown_signal (hav : Coord → Coord → ℚ) (signals : List (String × Coord))
    (dest : String) (cur : Coord) (wps passed : List String) (w : String)
    (hfu : firstUnpassed wps passed = some w) (hlk : signals.lookup w = none) :
    loopStep hav signals dest cur wps passed
      = (if hav cur ((0 : ℚ), (0 : ℚ)) < 0.05 then (none, passed ++ [w])
         else (some w, passed))
    ∧ (find_next_signal_on_route hav signals dest cur wps passed).isSome = true := by
  have hc : signalCoord signals w = ((0 : ℚ), (0 : ℚ)) := by
    unfold signalCoord
    rw [hlk]
    rfl
  have hfu2 : wps.find? (fun s => decide (s ∉ passed)) = some w := hfu
  have hw_not : w ∉ passed := by simpa using List.find?_some hfu2
  constructor
  · have hni : (if w ∈ passed then passed else passed ++ [w]) = passed ++ [w] :=
      if_neg hw_not
    simp only [loopStep, hfu, hc, hni]
  · have hm : (wps.filter (fun s => decide (s ∉ passed))).length < wps.length + 1 :=
      Nat.lt_succ_of_le (List.length_filter_le _ _)
    obtain ⟨r, ext, heq, -⟩ :=
      find_next_loop_spec hav signals dest cur wps (wps.length + 1) passed hm
    unfold find_next_signal_on_route
    rw [heq]
    rfl

/-- Witness for claim C10 at a concrete input: an empty registry with
one waypoint name. -/
theorem C10_witness :
    firstUnpassed ["A"] [] = some "A"
    ∧ (List.lookup "A" ([] : List (String × Coord)) = none)
    ∧ loopStep (fun _ _ => (1 : ℚ)) [] "D" ((0 : ℚ), (0 : ℚ)) ["A"] []
        = (if (1 : ℚ) < 0.05 then (none, [] ++ ["A"]) else (some "A", []))
    ∧ (find_next_signal_on_route (fun _ _ => (1 : ℚ)) [] "D" ((0 : ℚ), (0 : ℚ))
        ["A"] []).isSome = true := by
  have h := C10_unknown_signal (fun _ _ => (1 : ℚ)) [] "D" ((0 : ℚ), (0 : ℚ))
    ["A"] [] "A" rfl rfl
  exact ⟨rfl, rfl, h.1, h.2⟩

/-- Claim C3, amended.  For a freshly activated route with nonempty
points in the Control Panel variant, the first N ticks serve the points
in order with the previous point one behind (the first serving the
first point twice), and every later tick holds the final point, with
the point before last as previous when N exceeds one.  The VSC variant
instead returns the empty result once the cursor reaches the end. -/
theorem C3_tick_progression (s0 : SimState) (pts : List Coord)
    (hp : s0.route_points = pts) (h0 : s0.current_point_index = 0)
    (hne : pts ≠ []) :
    (∀ i, i < pts.length →
        tickOut (tickState^[i] s0) = (pts.get? i, pts.get? (i - 1)))
    ∧ (∀ k, pts.length ≤ k →
        tickOut (tickState^[k] s0)
          = (pts.get? (pts.length - 1),
             pts.get? (if 1 < pts.length then pts.length - 2 else pts.length - 1)))
    ∧ (∀ s : SimState, s.route_points ≠ [] →
        s.route_points.length ≤ s.current_point_index →
        get_next_simulated_location_vsc s = ((none, none), s)) := by
  refine ⟨?_, ?_, ?_⟩
  · intro i hi
    obtain ⟨hr, hc⟩ := tickState_iterate s0 h0 i (by rw [hp]; omega)
    have hlt : (tickState^[i] s0).current_point_index
        < (tickState^[i] s0).route_points.length := by
      rw [hr, hc, hp]
      exact hi
    unfold tickOut
    rw [tick_active _ hlt, hr, hc, hp]
  · intro k hk
    have hiter : tickState^[k] s0 = tickState^[s0.route_points.length] s0 :=
      tickState_iterate_ge s0 h0 k (by rw [hp]; omega)
    obtain ⟨hr, hc⟩ := tickState_iterate s0 h0 s0.route_points.length (le_refl _)
    have h1 : (tickState^[s0.route_points.length] s0).route_points ≠ [] := by
      rw [hr, hp]
      exact hne
    have h2 : (tickState^[s0.route_points.length] s0).route_points.length
        ≤ (tickState^[s0.route_points.length] s0).current_point_index := by
      rw [hr, hc]
    unfold tickOut
    rw [hiter, tick_held _ h1 h2, hr, hp]
  · intro s hs1 hs2
    simp only [get_next_simulated_location_vsc, dif_neg hs1, dif_pos hs2]

/-- Witness for claim C3 at a concrete input: the second tick of a two
point route serves the second point with the first as previous. -/
theorem C3_witness :
    tickOut (tickState^[1]
        (⟨[((1 : ℚ), (2 : ℚ)), ((3 : ℚ), (4 : ℚ))], [], 0, none, "s", "d", []⟩ : SimState))
      = (some ((3 : ℚ), (4 : ℚ)), some ((1 : ℚ), (2 : ℚ))) := by
  have h := (C3_tick_progression
      ⟨[((1 : ℚ), (2 : ℚ)), ((3 : ℚ), (4 : ℚ))], [], 0, none, "s", "d", []⟩
      [((1 : ℚ), (2 : ℚ)), ((3 : ℚ), (4 : ℚ))] rfl rfl (by simp)).1 1 (by simp)
  exact h

/-- Counterexample to claim C3 as stated: in the VSC variant a tick
past the end of a one point route returns the empty result, not the
held final point. -/
theorem C3_counterexample :
    (get_next_simulated_location_vsc
        ⟨[((1 : ℚ), (2 : ℚ))], [], 1, none, "s", "d", []⟩).1 = (none, none)
    ∧ ((none, none) : Option Coord × Option Coord)
        ≠ (some ((1 : ℚ), (2 : ℚ)), some ((1 : ℚ), (2 : ℚ))) := by
  constructor
  · rfl
  · simp

/-- Claim C1, amended.  When the route provider call fails, both manual
activation handlers return the provider failure status and leave the
route points, waypoint sequence, cursor, previous location and passed
set exactly as they were; however the recorded start and destination
names have already been overwritten with the names of the requested
signals, because both handlers assign them before consulting the
provider. -/
theorem C1_provider_failure_preserves_route (hav : Coord → Coord → ℚ)
    (signal_id_to_name : List (Nat × String)) (signals : List (String × Coord))
    (provider : Coord → Coord → Option (List Coord)) (start_id end_id : Nat)
    (s : SimState) (start_nm end_nm : String) (sc ec : Coord)
    (h1 : signal_id_to_name.lookup start_id = some start_nm)
    (h2 : signal_id_to_name.lookup end_id = some end_nm)
    (h3 : signals.lookup start_nm = some sc)
    (h4 : signals.lookup end_nm = some ec)
    (h5 : provider (sc.2, sc.1) (ec.2, ec.1) = none) :
    start_manual_route hav signal_id_to_name signals provider start_id end_id s
      = (.providerFailure,
         { s with current_start_name := start_nm, current_destination_name := end_nm })
    ∧ start_route_vsc hav signal_id_to_name signals provider start_id end_id s
      = (.providerFailure,
         { s with current_start_name := start_nm, current_destination_name := end_nm }) := by
  constructor
  · simp only [start_manual_route, h1, h2, h3, h4, h5]
  · simp only [start_route_vsc, h1, h2, h3, h4, h5]

/-- Counterexample to claim C1 as stated: after a failing provider call
the activation does report failure, yet the recorded start name has
changed from Old to A, so the prior state is not left untouched. -/
theorem C1_counterexample :
    (start_manual_route (fun _ _ => (0 : ℚ)) [(1, "A"), (2, "B")]
        [("A", ((0 : ℚ), (0 : ℚ))), ("B", ((1 : ℚ), (1 : ℚ)))]
        (fun _ _ => none) 1 2
        ⟨[], [], 0, none, "Old", "OldDest", []⟩).1 = .providerFailure
    ∧ (start_manual_route (fun _ _ => (0 : ℚ)) [(1, "A"), (2, "B")]
        [("A", ((0 : ℚ), (0 : ℚ))), ("B", ((1 : ℚ), (1 : ℚ)))]
        (fun _ _ => none) 1 2
        ⟨[], [], 0, none, "Old", "OldDest", []⟩).2.current_start_name = "A"
    ∧ ("A" : String) ≠ "Old" := by
  refine ⟨rfl, rfl, by decide⟩

/-- Witness for claim C1 at a concrete input: both variants report the
provider failure and keep everything except the two name fields. -/
theorem C1_witness :
    (([(1, "A"), (2, "B")] : List (Nat × String)).lookup 1 = some "A")
    ∧ (([(1, "A"), (2, "B")] : List (Nat × String)).lookup 2 = some "B")
    ∧ (([("A", ((0 : ℚ), (0 : ℚ))), ("B", ((1 : ℚ), (1 : ℚ)))]
        : List (String × Coord)).lookup "A" = some ((0 : ℚ), (0 : ℚ)))
    ∧ (([("A", ((0 : ℚ), (0 : ℚ))), ("B", ((1 : ℚ), (1 : ℚ)))]
        : List (String × Coord)).lookup "B" = some ((1 : ℚ), (1 : ℚ)))
    ∧ start_manual_route (fun _ _ => (0 : ℚ)) [(1, "A"), (2, "B")]
        [("A", ((0 : ℚ), (0 : ℚ))), ("B", ((1 : ℚ), (1 : ℚ)))]
        (fun _ _ => none) 1 2 ⟨[], [], 0, none, "Old", "OldDest", []⟩
      = (.providerFailure, ⟨[], [], 0, none, "A", "B", []⟩)
    ∧ start_route_vsc (fun _ _ => (0 : ℚ)) [(1, "A"), (2, "B")]
        [("A", ((0 : ℚ), (0 : ℚ))), ("B", ((1 : ℚ), (1 : ℚ)))]
        (fun _ _ => none) 1 2 ⟨[], [], 0, none, "Old", "OldDest", []⟩
      = (.providerFailure, ⟨[], [], 0, none, "A", "B", []⟩) := by
  have h := C1_provider_failure_preserves_route (fun _ _ => (0 : ℚ)) [(1, "A"), (2, "B")]
      [("A", ((0 : ℚ), (0 : ℚ))), ("B", ((1 : ℚ), (1 : ℚ)))] (fun _ _ => none) 1 2
      ⟨[], [], 0, none, "Old", "OldDest", []⟩ "A" "B" ((0 : ℚ), (0 : ℚ)) ((1 : ℚ), (1 : ℚ))
      rfl rfl rfl rfl rfl
  exact ⟨rfl, rfl, rfl, rfl, h.1, h.2⟩

/-- Claim C4, amended.  A successful Control Panel manual activation
and a successful pool draw reset the cursor to 0, the previous point to
absent and the passed set to empty; a successful VSC manual activation
resets the cursor and the passed set but leaves the previous point
exactly as it was. -/
theorem C4_activation_reset :
    (∀ (hav : Coord → Coord → ℚ) (idn : List (Nat × String))
        (signals : List (String × Coord))
        (provider : Coord → Coord → Option (List Coord)) (start_id end_id : Nat)
        (s s2 : SimState),
        start_manual_route hav idn signals provider start_id end_id s = (.success, s2) →
        s2.current_point_index = 0 ∧ s2.previous_location = none
          ∧ s2.signals_passed_on_current_route = [])
    ∧ (∀ (pool : List PreRoute) (pick : Nat) (s s2 : SimState),
        select_new_route pool pick s = (true, s2) →
        s2.current_point_index = 0 ∧ s2.previous_location = none
          ∧ s2.signals_passed_on_current_route = [])
    ∧ (∀ (hav : Coord → Coord → ℚ) (idn : List (Nat × String))
        (signals : List (String × Coord))
        (provider : Coord → Coord → Option (List Coord)) (start_id end_id : Nat)
        (s s2 : SimState),
        start_route_vsc hav idn signals provider start_id end_id s = (.success, s2) →
        s2.current_point_index = 0 ∧ s2.signals_passed_on_current_route = []
          ∧ s2.previous_location = s.previous_location) := by
  refine ⟨?_, ?_, ?_⟩
  · intro hav idn signals provider start_id end_id s s2 h
    simp only [start_manual_route] at h
    repeat' split at h
    all_goals injection h with ho hs
    all_goals first
      | exact ActivationOutcome.noConfusion ho
      | (subst hs; exact ⟨rfl, rfl, rfl⟩)
  · intro pool pick s s2 h
    unfold select_new_route at h
    split at h
    · injection h with ho hs
      simp at ho
    · injection h with ho hs
      subst hs
      exact ⟨rfl, rfl, rfl⟩
  · intro hav idn signals provider start_id end_id s s2 h
    simp only [start_route_vsc] at h
    repeat' split at h
    all_goals injection h with ho hs
    all_goals first
      | exact ActivationOutcome.noConfusion ho
      | (subst hs; exact ⟨rfl, rfl, rfl⟩)

/-- Counterexample to claim C4 as stated: a successful VSC manual
activation leaves the previous point present instead of resetting it to
absent. -/
theorem C4_counterexample :
    (start_route_vsc (fun _ _ => (1 : ℚ)) [(1, "A"), (2, "B")]
        [("A", ((0 : ℚ), (0 : ℚ))), ("B", ((0 : ℚ), (0 : ℚ)))]
        (fun _ _ => some [((0 : ℚ), (0 : ℚ))]) 1 2
        ⟨[], [], 3, some ((5 : ℚ), (5 : ℚ)), "Old", "OldDest", ["junk"]⟩).1 = .success
    ∧ (start_route_vsc (fun _ _ => (1 : ℚ)) [(1, "A"), (2, "B")]
        [("A", ((0 : ℚ), (0 : ℚ))), ("B", ((0 : ℚ), (0 : ℚ)))]
        (fun _ _ => some [((0 : ℚ), (0 : ℚ))]) 1 2
        ⟨[], [], 3, some ((5 : ℚ), (5 : ℚ)), "Old", "OldDest", ["junk"]⟩).2.previous_location
      ≠ none := by
  refine ⟨rfl, ?_⟩
  show some ((5 : ℚ), (5 : ℚ)) ≠ none
  simp

/-- Witness for claim C4 at a concrete input: a pool draw resets the
cursor, previous point and passed set. -/
theorem C4_witness :
    select_new_route [⟨"A", "B", [((0 : ℚ), (0 : ℚ))], ["A", "B"]⟩] 0
        ⟨[], [], 3, some ((5 : ℚ), (5 : ℚ)), "Old", "OldDest", ["junk"]⟩
      = (true, ⟨[((0 : ℚ), (0 : ℚ))], ["A", "B"], 0, none, "A", "B", []⟩)
    ∧ ((0 : Nat) = 0 ∧ (none : Option Coord) = none ∧ ([] : List String) = []) := by
  have h := C4_activation_reset.2.1 [⟨"A", "B", [((0 : ℚ), (0 : ℚ))], ["A", "B"]⟩] 0
      ⟨[], [], 3, some ((5 : ℚ), (5 : ℚ)), "Old", "OldDest", ["junk"]⟩
      ⟨[((0 : ℚ), (0 : ℚ))], ["A", "B"], 0, none, "A", "B", []⟩ rfl
  exact ⟨rfl, h⟩

/-- On a duplicate free list with nothing already seen, keeping first
occurrences changes nothing. -/
theorem dedup_first_eq_self :
    ∀ (l seen : List String), l.Nodup → (∀ x ∈ l, x ∉ seen) →
      dedup_first l seen = l := by
  intro l
  induction l with
  | nil =>
      intro seen _ _
      rfl
  | cons a t ih =>
      intro seen hnd hdisj
      unfold dedup_first
      rw [if_neg (hdisj a (List.mem_cons_self a t))]
      congr 1
      refine ih (a :: seen) (List.nodup_cons.mp hnd).2 ?_
      intro x hx
      rw [List.mem_cons]
      rintro (rfl | hseen)
      · exact (List.nodup_cons.mp hnd).1 hx
      · exact hdisj x (List.mem_cons_of_mem a hx) hseen

/-- Claim C2: whenever the registry has duplicate free names, the start
signal is registered and start differs from end, the waypoint sequence
computed by find_signals_on_path begins with start, ends with end,
contains no duplicate name, and every other signal of the result is a
registered signal within the proximity radius of at least one path
point.  Both cited implementations are covered: the Control Panel
variant with its final deduplication and the VSC variant without it
(under these hypotheses the list before deduplication is already
duplicate free, so both return sequences with the claimed shape). -/
theorem C2_waypoint_sequence (hav : Coord → Coord → ℚ) (signals : List (String × Coord))
    (route_points : List Coord) (start_name end_name : String)
    (hnd : (signals.map Prod.fst).Nodup) (hse : start_name ≠ end_name) :
    (∀ ws, find_signals_on_path hav signals route_points start_name end_name = some ws →
        ws.head? = some start_name
        ∧ ws.getLast? = some end_name
        ∧ ws.Nodup
        ∧ ∀ w ∈ ws, w ≠ start_name → w ≠ end_name →
            ∃ c, (w, c) ∈ signals
              ∧ ∃ p ∈ route_points, hav p c < WAYPOINT_PROXIMITY_KM)
    ∧ (∀ ws, find_signals_on_path_vsc hav signals route_points start_name end_name = some ws →
        ws.head? = some start_name
        ∧ ws.getLast? = some end_name
        ∧ ws.Nodup
        ∧ ∀ w ∈ ws, w ≠ start_name → w ≠ end_name →
            ∃ c, (w, c) ∈ signals
              ∧ ∃ p ∈ route_points, hav p c < WAYPOINT_PROXIMITY_KM) := by
  cases hlk : signals.lookup start_name with
  | none =>
      constructor
      · intro ws hws
        unfold find_signals_on_path at hws
        rw [hlk] at hws
        exact absurd hws (by simp)
      · intro ws hws
        unfold find_signals_on_path_vsc at hws
        rw [hlk] at hws
        exact absurd hws (by simp)
  | some sc =>
      set filtered := (signals.filter (fun nc =>
          route_points.any (fun p =>
            decide (hav p nc.2 < WAYPOINT_PROXIMITY_KM)))).map Prod.fst with hfdef
      set sorted := List.insertionSort
          (fun a b => hav sc (signalCoord signals a) ≤ hav sc (signalCoord signals b))
          filtered with hsdef
      set trimmed := (sorted.erase start_name).erase end_name with htdef
      have hnd_f : filtered.Nodup := by
        refine List.Nodup.sublist ?_ hnd
        exact List.Sublist.map Prod.fst (List.filter_sublist signals)
      have hnd_s : sorted.Nodup := ((List.perm_insertionSort _ _).nodup_iff).mpr hnd_f
      have hnd_e : (sorted.erase start_name).Nodup := hnd_s.erase _
      have hnd_t : trimmed.Nodup := hnd_e.erase _
      have hstart_t : start_name ∉ trimmed := by
        intro hmem
        have h1 : start_name ∈ sorted.erase start_name := List.mem_of_mem_erase hmem
        have h2 := (hnd_s.mem_erase_iff).mp h1
        exact h2.1 rfl
      have hend_t : end_name ∉ trimmed := by
        intro hmem
        have h2 := (hnd_e.mem_erase_iff).mp hmem
        exact h2.1 rfl
      have hnd_full : (start_name :: (trimmed ++ [end_name])).Nodup := by
        refine List.nodup_cons.mpr ⟨?_, ?_⟩
        · rw [List.mem_append]
          rintro (h | h)
          · exact hstart_t h
          · rw [List.mem_singleton] at h
            exact hse h
        · refine List.Nodup.append hnd_t (List.nodup_singleton _) ?_
          intro a ha hb
          rw [List.mem_singleton] at hb
          subst hb
          exact hend_t ha
      have hlast : (start_name :: (trimmed ++ [end_name])).getLast? = some end_name := by
        rw [← List.cons_append, List.getLast?_concat]
      have hmem : ∀ w ∈ start_name :: (trimmed ++ [end_name]),
          w ≠ start_name → w ≠ end_name →
          ∃ c, (w, c) ∈ signals
            ∧ ∃ p ∈ route_points, hav p c < WAYPOINT_PROXIMITY_KM := by
        intro w hw hw1 hw2
        rw [List.mem_cons] at hw
        rcases hw with rfl | hw
        · exact absurd rfl hw1
        rw [List.mem_append] at hw
        rcases hw with hw | hw
        · have h1 : w ∈ sorted.erase start_name := List.mem_of_mem_erase hw
          have h2 : w ∈ sorted := List.mem_of_mem_erase h1
          have h3 : w ∈ filtered := ((List.perm_insertionSort _ _).mem_iff).mp h2
          rw [hfdef, List.mem_map] at h3
          obtain ⟨nc, hncmem, hnc1⟩ := h3
          rw [List.mem_filter] at hncmem
          obtain ⟨hnc_sig, hpred⟩ := hncmem
          rw [List.any_eq_true] at hpred
          obtain ⟨p, hp, hdec⟩ := hpred
          refine ⟨nc.2, ?_, p, hp, of_decide_eq_true hdec⟩
          rw [← hnc1, Prod.mk.eta]
          exact hnc_sig
        · rw [List.mem_singleton] at hw
          exact absurd hw hw2
      constructor
      · intro ws hws
        unfold find_signals_on_path at hws
        rw [hlk] at hws
        simp only [Option.some.injEq] at hws
        rw [← hfdef, ← hsdef, ← htdef] at hws
        rw [dedup_first_eq_self _ [] hnd_full (by simp)] at hws
        subst hws
        exact ⟨rfl, hlast, hnd_full, hmem⟩
      · intro ws hws
        unfold find_signals_on_path_vsc at hws
        rw [hlk] at hws
        simp only [Option.some.injEq] at hws
        rw [← hfdef, ← hsdef, ← htdef] at hws
        subst hws
        exact ⟨rfl, hlast, hnd_full, hmem⟩

/-- Witness for claim C2 at a concrete input: one registered signal A
near the sole path point, with destination B outside the registry, for
both sequencer variants. -/
theorem C2_witness :
    ((([("A", ((0 : ℚ), (0 : ℚ)))] : List (String × Coord)).map Prod.fst).Nodup)
    ∧ ("A" : String) ≠ "B"
    ∧ find_signals_on_path (fun _ _ => (0 : ℚ)) [("A", ((0 : ℚ), (0 : ℚ)))]
        [((0 : ℚ), (0 : ℚ))] "A" "B" = some ["A", "B"]
    ∧ find_signals_on_path_vsc (fun _ _ => (0 : ℚ)) [("A", ((0 : ℚ), (0 : ℚ)))]
        [((0 : ℚ), (0 : ℚ))] "A" "B" = some ["A", "B"]
    ∧ ((["A", "B"] : List String).head? = some "A"
        ∧ (["A", "B"] : List String).getLast? = some "B"
        ∧ (["A", "B"] : List String).Nodup
        ∧ ∀ w ∈ (["A", "B"] : List String), w ≠ "A" → w ≠ "B" →
            ∃ c, (w, c) ∈ ([("A", ((0 : ℚ), (0 : ℚ)))] : List (String × Coord))
              ∧ ∃ p ∈ ([((0 : ℚ), (0 : ℚ))] : List Coord),
                  (0 : ℚ) < WAYPOINT_PROXIMITY_KM)
    ∧ ((["A", "B"] : List String).head? = some "A"
        ∧ (["A", "B"] : List String).getLast? = some "B"
        ∧ (["A", "B"] : List String).Nodup
        ∧ ∀ w ∈ (["A", "B"] : List String), w ≠ "A" → w ≠ "B" →
            ∃ c, (w, c) ∈ ([("A", ((0 : ℚ), (0 : ℚ)))] : List (String × Coord))
              ∧ ∃ p ∈ ([((0 : ℚ), (0 : ℚ))] : List Coord),
                  (0 : ℚ) < WAYPOINT_PROXIMITY_KM) := by
  have hlt : (0 : ℚ) < WAYPOINT_PROXIMITY_KM := by
    norm_num [WAYPOINT_PROXIMITY_KM]
  have hws1 : find_signals_on_path (fun _ _ => (0 : ℚ)) [("A", ((0 : ℚ), (0 : ℚ)))]
      [((0 : ℚ), (0 : ℚ))] "A" "B" = some ["A", "B"] := by
    simp [find_signals_on_path, hlt, List.insertionSort, List.orderedInsert,
      dedup_first, List.lookup]
  have hws2 : find_signals_on_path_vsc (fun _ _ => (0 : ℚ)) [("A", ((0 : ℚ), (0 : ℚ)))]
      [((0 : ℚ), (0 : ℚ))] "A" "B" = some ["A", "B"] := by
    simp [find_signals_on_path_vsc, hlt, List.insertionSort, List.orderedInsert,
      List.lookup]
  have h := C2_waypoint_sequence (fun _ _ => (0 : ℚ)) [("A", ((0 : ℚ), (0 : ℚ)))]
      [((0 : ℚ), (0 : ℚ))] "A" "B" (by decide) (by decide)
  exact ⟨by decide, by decide, hws1, hws2, h.1 _ hws1, h.2 _ hws2⟩

end RapidRoute
